import Mathlib

/-!
Shallow embedding of `src/contracts/factory/src/lib.rs` (a NEAR token
factory contract).  Strings (account identifiers, token symbols, keys)
are modelled as lists of byte values (`List Nat`); currency amounts
(`NearToken`, u128 yoctoNEAR) are modelled as `Nat` together with
explicit saturation at `2 ^ 128 - 1` where the source uses the
`saturating_*` methods.  Host state (`env::*`) is a record of call-site
parameters; a panic (`assert!`, `unwrap`) is an `Except.error`, and the
host's all-or-nothing call semantics (a panic rolls back every write of
the call) is the `applyOp` function, which commits the new state only on
`Except.ok`.
-/

/-- u128::MAX: `NearToken` holds a u128 amount of yoctoNEAR. -/
def U128_MAX : Nat := 2 ^ 128 - 1

/-- `NearToken::saturating_add` (u128 saturating addition). -/
def saturating_add (a b : Nat) : Nat := min (a + b) U128_MAX

/-- `NearToken::saturating_sub`: on non-negative integers, u128 saturating
subtraction is exactly truncated subtraction. -/
def saturating_sub (a b : Nat) : Nat := a - b

/-- `NearToken::saturating_mul` (u128 saturating multiplication). -/
def saturating_mul (a b : Nat) : Nat := min (a * b) U128_MAX

/-- `const EXTRA_BYTES: usize = 10000`. -/
def EXTRA_BYTES : Nat := 10000

/-- Association-list read: models `LookupMap::get` / `IterableMap` key
lookup over the contract's persistent collections. -/
def mapGet {α β : Type} [DecidableEq α] (m : List (α × β)) (k : α) : Option β :=
  match m with
  | [] => none
  | (k2, v) :: rest => if k2 = k then some v else mapGet rest k

/-- Association-list write: models `LookupMap::insert` / `IterableMap::insert`,
which replace any existing value and return the previous value (`.1` here),
exactly as the Rust API does. -/
def mapInsert {α β : Type} [DecidableEq α] (m : List (α × β)) (k : α) (v : β) :
    Option β × List (α × β) :=
  match m with
  | [] => (none, [(k, v)])
  | (k2, v2) :: rest =>
    if k2 = k then (some v2, (k2, v) :: rest)
    else
      let r := mapInsert rest k v
      (r.1, (k2, v2) :: r.2)

/-- `FungibleTokenMetadata` (near-contract-standards); only the fields, the
shape validation `assert_valid` is an external collaborator and is a
predicate of the environment below. -/
structure FungibleTokenMetadata where
  spec : List Nat
  name : List Nat
  symbol : List Nat
  icon : Option (List Nat)
  reference : Option (List Nat)
  reference_hash : Option (List Nat)
  decimals : Nat
deriving DecidableEq

/-- `TokenArgs`: owner, total supply, metadata. -/
structure TokenArgs where
  owner_id : List Nat
  total_supply : Nat
  metadata : FungibleTokenMetadata
deriving DecidableEq

/-- `Contract`: the token registry, the per-account storage-deposit ledger
and the registration-cost constant probed by `new()`. -/
structure Contract where
  tokens : List (List Nat × TokenArgs)
  storage_deposits : List (List Nat × Nat)
  storage_balance_cost : Nat
deriving DecidableEq

/-- Host call context and host primitives used by the contract: storage
price, attached deposit, caller, this contract's account, signer key, the
host's account-id legality predicate (`env::is_valid_account_id`, which also
stands for the `AccountId` parse), the external metadata validator
(`FungibleTokenMetadata::assert_valid`), the byte length of the embedded
`FT_WASM_CODE` blob, and the host-reported storage-usage delta caused by the
registry insert (`env::storage_usage()` after minus before). -/
structure Env where
  storage_byte_cost : Nat
  attached_deposit : Nat
  predecessor_account_id : List Nat
  current_account_id : List Nat
  signer_account_pk : List Nat
  is_valid_account_id : List Nat → Bool
  metadata_valid : FungibleTokenMetadata → Bool
  ft_wasm_code : List Nat
  insert_delta : Nat

/-- The panics of the contract, named after the spec's error taxonomy; each
constructor corresponds to one panic site of the source. -/
inductive Err where
  /-- `assert!(deposit >= self.storage_balance_cost, "Deposit is too low")`. -/
  | InsufficientRegistrationFunds
  /-- `args.metadata.assert_valid()` panicking. -/
  | InvalidMetadata
  /-- `assert!(is_valid_token_id(&token_id), "Invalid Symbol")`. -/
  | InvalidName
  /-- `assert!(env::is_valid_account_id(..), "Token Account ID is invalid")`. -/
  | InvalidChildIdentifier
  /-- `self.storage_deposits.get(&account_id).unwrap()` panicking on `None`. -/
  | AccountNotRegistered
  /-- `assert!(user_balance >= &required_balance, "Not enough required balance")`. -/
  | InsufficientFunds
  /-- `assert!(self.tokens.insert(..).is_none(), "Token ID is already taken")`. -/
  | NameAlreadyTaken
deriving DecidableEq

/-- One byte of `str::to_ascii_lowercase`: ASCII `A`..`Z` maps to `a`..`z`,
every other byte is unchanged. -/
def ascii_lower_byte (b : Nat) : Nat :=
  if 65 ≤ b ∧ b ≤ 90 then b + 32 else b

/-- `args.metadata.symbol.to_ascii_lowercase()`. -/
def to_ascii_lowercase (s : List Nat) : List Nat :=
  s.map ascii_lower_byte

/-- `is_valid_token_id`: every byte in `b'0'..=b'9' | b'a'..=b'z'`, with the
source's early `return false` on the first byte outside the ranges. -/
def is_valid_token_id (token_id : List Nat) : Bool :=
  match token_id with
  | [] => true
  | c :: rest =>
    if (48 ≤ c ∧ c ≤ 57) ∨ (97 ≤ c ∧ c ≤ 122) then is_valid_token_id rest
    else false

/-- `get_min_attached_balance`: note the source multiplies
`vec![args].len()` — the length of a one-element vector, i.e. the constant
`1` — by 2; it does not serialize `args`. -/
def get_min_attached_balance (env : Env) (args : TokenArgs) : Nat :=
  saturating_mul env.storage_byte_cost
    (env.ft_wasm_code.length + EXTRA_BYTES + [args].length * 2)

/-- `get_required_deposit`. -/
def get_required_deposit (env : Env) (s : Contract) (args : TokenArgs)
    (account_id : List Nat) : Nat :=
  let args_deposit := get_min_attached_balance env args
  match mapGet s.storage_deposits account_id with
  | some previous_balance => saturating_sub args_deposit previous_balance
  | none => saturating_add s.storage_balance_cost args_deposit

/-- `get_number_of_tokens`. -/
def get_number_of_tokens (s : Contract) : Nat :=
  s.tokens.length

/-- `storage_deposit`: top-up of the caller's prepaid storage credit; a
first-time caller pays `storage_balance_cost` out of the attached deposit
and must attach at least that much. -/
def storage_deposit (env : Env) (s : Contract) : Except Err Contract :=
  let account_id := env.predecessor_account_id
  let deposit := env.attached_deposit
  match mapGet s.storage_deposits account_id with
  | some previous_balance =>
    Except.ok { s with storage_deposits :=
      (mapInsert s.storage_deposits account_id
        (saturating_add previous_balance deposit)).2 }
  | none =>
    if s.storage_balance_cost ≤ deposit then
      Except.ok { s with storage_deposits :=
        (mapInsert s.storage_deposits account_id
          (saturating_sub deposit s.storage_balance_cost)).2 }
    else Except.error Err.InsufficientRegistrationFunds

/-- The deferred action batch `create_token` returns: account creation,
transfer, key, code deployment and the `new` initializer call (its JSON
serialization of `args` is abstracted to `args` itself). -/
structure Promise where
  target : List Nat
  create_account : Bool
  transfer_amount : Nat
  full_access_key : List Nat
  deployed_code : List Nat
  call_method : List Nat
  call_args : TokenArgs
  call_deposit : Nat
  call_gas_tgas : Nat
deriving DecidableEq

/-- `create_token`, step for step: optional auto `storage_deposit`, metadata
validation, symbol lowercasing and charset check, child account-id check,
ledger read (`unwrap`), sufficiency check, debit, registry insert with
its `is_none` assertion, storage-delta pricing, and the action batch. -/
def create_token (env : Env) (s : Contract) (args : TokenArgs) :
    Except Err (Contract × Promise) :=
  match (if 0 < env.attached_deposit then storage_deposit env s else Except.ok s) with
  | Except.error e => Except.error e
  | Except.ok s1 =>
    if env.metadata_valid args.metadata = false then Except.error Err.InvalidMetadata
    else
      let token_id := to_ascii_lowercase args.metadata.symbol
      if is_valid_token_id token_id = false then Except.error Err.InvalidName
      else
        let token_account_id := token_id ++ [46] ++ env.current_account_id
        if env.is_valid_account_id token_account_id = false then
          Except.error Err.InvalidChildIdentifier
        else
          let required_balance := get_min_attached_balance env args
          match mapGet s1.storage_deposits env.predecessor_account_id with
          | none => Except.error Err.AccountNotRegistered
          | some user_balance =>
            if user_balance < required_balance then Except.error Err.InsufficientFunds
            else
              let s2 := { s1 with storage_deposits :=
                (mapInsert s1.storage_deposits env.predecessor_account_id
                  (saturating_sub user_balance required_balance)).2 }
              let ins := mapInsert s2.tokens token_id args
              if ins.1.isSome then Except.error Err.NameAlreadyTaken
              else
                let s3 := { s2 with tokens := ins.2 }
                let storage_balance_used :=
                  saturating_mul env.storage_byte_cost env.insert_delta
                Except.ok (s3,
                  { target := token_account_id
                    create_account := true
                    transfer_amount :=
                      saturating_sub required_balance storage_balance_used
                    full_access_key := env.signer_account_pk
                    deployed_code := env.ft_wasm_code
                    call_method := [110, 101, 119]
                    call_args := args
                    call_deposit := 0
                    call_gas_tgas := 50 })

/-- One external call against the contract: a `storage_deposit`, a
`create_token`, or a read-only `get_required_deposit` quote. -/
inductive Op where
  | depositOp (env : Env)
  | createOp (env : Env) (args : TokenArgs)
  | quoteOp (env : Env) (args : TokenArgs) (account : List Nat)

/-- Committed state after one call: the host commits the new state on
success and rolls every write of the call back on a panic; a
`get_required_deposit` call borrows the state immutably (`&self`) and
produces no state at all. -/
def applyOp (s : Contract) : Op → Contract
  | Op.depositOp env =>
    match storage_deposit env s with
    | Except.ok s2 => s2
    | Except.error _ => s
  | Op.createOp env args =>
    match create_token env s args with
    | Except.ok r => r.1
    | Except.error _ => s
  | Op.quoteOp _ _ _ => s

/-- Committed state after a sequence of calls. -/
def run (s : Contract) (ops : List Op) : Contract :=
  ops.foldl applyOp s

/-- Modelled from the spec: `creationCost(args)` as §4.1 words it —
`storageBytePrice × (childBinarySize + FIXED_PADDING + 2×serializedSize(args))`
— parameterised by the serialized byte size of `args`, which the source
never computes (the serializer is an external crate). -/
def creationCost_spec (env : Env) (serialized_size : Nat) : Nat :=
  saturating_mul env.storage_byte_cost
    (env.ft_wasm_code.length + EXTRA_BYTES + 2 * serialized_size)

/-! ## Concrete fixtures used by witnesses -/

/-- A concrete metadata value (spec "ft-1.0", name "T", symbol "a"). -/
def mdW : FungibleTokenMetadata :=
  { spec := [102, 116, 45, 49, 46, 48], name := [84], symbol := [97],
    icon := none, reference := none, reference_hash := none, decimals := 24 }

/-- Concrete creation arguments with symbol "a". -/
def argsW : TokenArgs :=
  { owner_id := [97], total_supply := 1000, metadata := mdW }

/-- A concrete call context: caller "a", contract "f", storage byte price 1,
nothing attached, every account id legal, every metadata shape accepted,
a 5-byte registry-insert delta, and an empty child binary. -/
def envW : Env :=
  { storage_byte_cost := 1, attached_deposit := 0,
    predecessor_account_id := [97], current_account_id := [102],
    signer_account_pk := [1], is_valid_account_id := fun _ => true,
    metadata_valid := fun _ => true, ft_wasm_code := [], insert_delta := 5 }

/-- The same call context with 150 yoctoNEAR attached. -/
def envD : Env := { envW with attached_deposit := 150 }

/-- A fresh contract whose probed registration cost is 100. -/
def sEmptyW : Contract :=
  { tokens := [], storage_deposits := [], storage_balance_cost := 100 }

/-- A contract where caller "a" is registered with credit 20000. -/
def sRegW : Contract :=
  { tokens := [], storage_deposits := [([97], 20000)], storage_balance_cost := 100 }

/-- `sRegW` after the token "a" has also been registered. -/
def sTokW : Contract :=
  { tokens := [([97], argsW)], storage_deposits := [([97], 20000)],
    storage_balance_cost := 100 }

/-- The state a successful `create_token envW sRegW argsW` commits. -/
def s3W : Contract :=
  { tokens := [([97], argsW)], storage_deposits := [([97], 9998)],
    storage_balance_cost := 100 }

/-- The action batch a successful `create_token envW sRegW argsW` emits. -/
def pW : Promise :=
  { target := [97, 46, 102], create_account := true, transfer_amount := 9997,
    full_access_key := [1], deployed_code := [], call_method := [110, 101, 119],
    call_args := argsW, call_deposit := 0, call_gas_tgas := 50 }

/-- Creation arguments whose symbol is "AB-1" (bytes `[65, 66, 45, 49]`). -/
def argsAB : TokenArgs :=
  { owner_id := [97], total_supply := 1000,
    metadata := { mdW with symbol := [65, 66, 45, 49] } }

/-! ## Helper lemmas on the association-list collections -/

theorem mapInsert_fst {α β : Type} [DecidableEq α] (m : List (α × β)) (k : α) (v : β) :
    (mapInsert m k v).1 = mapGet m k := by
  induction m with
  | nil => rfl
  | cons kv rest ih =>
    obtain ⟨k2, v2⟩ := kv
    by_cases h : k2 = k <;> simp [mapInsert, mapGet, h, ih]

theorem mapGet_mapInsert {α β : Type} [DecidableEq α] (m : List (α × β))
    (k k2 : α) (v : β) :
    mapGet (mapInsert m k v).2 k2 = if k = k2 then some v else mapGet m k2 := by
  induction m with
  | nil => by_cases h : k = k2 <;> simp [mapInsert, mapGet, h]
  | cons kv rest ih =>
    obtain ⟨ka, va⟩ := kv
    by_cases hk : ka = k
    · subst hk
      by_cases h2 : ka = k2 <;> simp [mapInsert, mapGet, h2]
    · by_cases h2 : ka = k2
      · subst h2
        have h3 : ¬k = ka := fun h => hk h.symm
        simp [mapInsert, mapGet, hk, h3]
      · simp [mapInsert, mapGet, hk, h2, ih]

/-! ## Inversion helpers for the contract's entry points -/

theorem storage_deposit_error_name (env : Env) (s : Contract) (e : Err)
    (h : storage_deposit env s = Except.error e) :
    e = Err.InsufficientRegistrationFunds := by
  simp only [storage_deposit] at h
  split at h
  · exact Except.noConfusion h
  · split at h
    · exact Except.noConfusion h
    · injection h with h2
      exact h2.symm

theorem storage_deposit_ok_frame (env : Env) (s s2 : Contract)
    (h : storage_deposit env s = Except.ok s2) :
    s2.tokens = s.tokens ∧ s2.storage_balance_cost = s.storage_balance_cost := by
  simp only [storage_deposit] at h
  split at h
  · injection h with h2
    subst h2
    exact ⟨rfl, rfl⟩
  · split at h
    · injection h with h2
      subst h2
      exact ⟨rfl, rfl⟩
    · exact Except.noConfusion h

theorem create_step0_frame (env : Env) (s s1 : Contract)
    (h : (if 0 < env.attached_deposit then storage_deposit env s else Except.ok s) =
      Except.ok s1) :
    s1.tokens = s.tokens ∧ s1.storage_balance_cost = s.storage_balance_cost := by
  split at h
  · exact storage_deposit_ok_frame env s s1 h
  · injection h with h2
    subst h2
    exact ⟨rfl, rfl⟩

/-! ## The claims -/

/-- C1: the claim says the creation cost is
`storageBytePrice × (childBinarySize + FIXED_PADDING + 2×serializedSize(args))`.
The code computes `vec![args].len() * 2`, and the length of the one-element
vector `vec![args]` is the constant 1, so the cost is
`storageBytePrice × (childBinarySize + 10000 + 2)` for every `args`: it does
not depend on the serialized size of `args` at all.  At the concrete
environment `envW` the code yields 10002 while the spec's formula yields
10100 for a 50-byte serialization. -/
theorem C1_creation_cost_ignores_args :
    (∀ env a1 a2, get_min_attached_balance env a1 = get_min_attached_balance env a2)
    ∧ (∀ env a, get_min_attached_balance env a =
        saturating_mul env.storage_byte_cost
          (env.ft_wasm_code.length + EXTRA_BYTES + 2))
    ∧ get_min_attached_balance envW argsW = 10002
    ∧ creationCost_spec envW 50 = 10100 := by
  refine ⟨fun env a1 a2 => rfl, fun env a => rfl, by decide, by decide⟩

/-- C10: the token-id charset check accepts the empty string, so a creation
request whose metadata symbol is empty never fails at the charset-validation
step (`Err.InvalidName`). -/
theorem C10_empty_symbol_passes_charset :
    is_valid_token_id [] = true
    ∧ is_valid_token_id (to_ascii_lowercase []) = true
    ∧ (∀ env s args, args.metadata.symbol = [] →
        create_token env s args ≠ Except.error Err.InvalidName) := by
  refine ⟨rfl, rfl, ?_⟩
  intro env s args hsym h
  simp only [create_token] at h
  split at h
  · rename_i e heq
    injection h with h2
    split at heq
    · have := storage_deposit_error_name env s e heq
      simp [this] at h2
    · exact Except.noConfusion heq
  · split at h
    · simp at h
    · split at h
      · rename_i hbad
        rw [hsym] at hbad
        simp [to_ascii_lowercase, is_valid_token_id] at hbad
      · split at h
        · simp at h
        · split at h
          · simp at h
          · split at h
            · simp at h
            · split at h
              · simp at h
              · exact Except.noConfusion h

/-- C3: the quote for an unregistered account is the registration cost plus
the creation cost (the code uses `saturating_add`; below the u128 bound that
is plain addition), and for a registered account it is the creation cost
minus the current credit, saturating at zero. -/
theorem C3_required_deposit (env : Env) (s : Contract) (args : TokenArgs)
    (a : List Nat) :
    (mapGet s.storage_deposits a = none →
      s.storage_balance_cost + get_min_attached_balance env args ≤ U128_MAX →
      get_required_deposit env s args a =
        s.storage_balance_cost + get_min_attached_balance env args)
    ∧ (∀ c, mapGet s.storage_deposits a = some c →
        (get_required_deposit env s args a : Int) =
          max ((get_min_attached_balance env args : Int) - (c : Int)) 0) := by
  constructor
  · intro hnone hle
    simp [get_required_deposit, hnone, saturating_add, min_eq_left hle]
  · intro c hc
    simp only [get_required_deposit, hc, saturating_sub]
    omega

/-- C4: a first-time `storage_deposit` fails with
`InsufficientRegistrationFunds` exactly when the attached amount is below
the registration cost, leaves the state unchanged in that case, and
otherwise credits the attached amount minus the registration cost; an
already-registered account gets the full attached amount added
(saturating). -/
theorem C4_storage_deposit_registration (env : Env) (s : Contract) :
    (mapGet s.storage_deposits env.predecessor_account_id = none →
      (storage_deposit env s = Except.error Err.InsufficientRegistrationFunds ↔
        env.attached_deposit < s.storage_balance_cost)
      ∧ (env.attached_deposit < s.storage_balance_cost →
          applyOp s (Op.depositOp env) = s)
      ∧ (s.storage_balance_cost ≤ env.attached_deposit →
          ∃ s2, storage_deposit env s = Except.ok s2 ∧
            mapGet s2.storage_deposits env.predecessor_account_id =
              some (env.attached_deposit - s.storage_balance_cost)))
    ∧ (∀ c, mapGet s.storage_deposits env.predecessor_account_id = some c →
        ∃ s2, storage_deposit env s = Except.ok s2 ∧
          mapGet s2.storage_deposits env.predecessor_account_id =
            some (saturating_add c env.attached_deposit)) := by
  constructor
  · intro hnone
    by_cases hle : s.storage_balance_cost ≤ env.attached_deposit
    · refine ⟨?_, ?_, ?_⟩
      · simp [storage_deposit, hnone, hle, Nat.not_lt.mpr hle]
      · intro hlt
        exact absurd hle (Nat.not_le.mpr hlt)
      · intro _
        refine ⟨{ s with storage_deposits :=
            (mapInsert s.storage_deposits env.predecessor_account_id
              (saturating_sub env.attached_deposit s.storage_balance_cost)).2 }, ?_, ?_⟩
        · simp [storage_deposit, hnone, hle]
        · simp [mapGet_mapInsert, saturating_sub]
    · refine ⟨?_, ?_, ?_⟩
      · simp [storage_deposit, hnone, hle, Nat.lt_of_not_le hle]
      · intro _
        simp [applyOp, storage_deposit, hnone, hle]
      · intro h
        exact absurd h hle
  · intro c hc
    refine ⟨{ s with storage_deposits :=
        (mapInsert s.storage_deposits env.predecessor_account_id
          (saturating_add c env.attached_deposit)).2 }, ?_, ?_⟩
    · simp [storage_deposit, hc]
    · simp [mapGet_mapInsert]

/-- C6: `get_required_deposit` borrows the contract state immutably; any
number of quote calls leaves the committed state — every credit, every
registry record and the token count — exactly as it was. -/
theorem C6_quote_never_mutates (env : Env) (s : Contract) (args : TokenArgs)
    (a : List Nat) (k : Nat) :
    run s (List.replicate k (Op.quoteOp env args a)) = s
    ∧ applyOp s (Op.quoteOp env args a) = s := by
  refine ⟨?_, rfl⟩
  induction k with
  | zero => rfl
  | succ k2 ih => rw [List.replicate_succ]; exact ih

/-- C5: credits are non-negative after any committed sequence of calls, and
the debit the contract performs (`saturating_sub`, used in `create_token`
after the sufficiency check) clamps at zero instead of underflowing. -/
theorem C5_credit_never_negative (ops : List Op) (s : Contract) (a : List Nat)
    (n : Nat) (_h : mapGet (run s ops).storage_deposits a = some n) :
    0 ≤ (n : Int)
    ∧ (∀ c amt, ((saturating_sub c amt : Nat) : Int) =
        max ((c : Int) - (amt : Int)) 0) := by
  refine ⟨Int.natCast_nonneg n, fun c amt => ?_⟩
  simp only [saturating_sub]
  omega

/-- C7: `create_token` derives the resource name by ASCII-lowercasing the
metadata symbol and fails with `InvalidName` whenever the derived name has a
byte outside `[0-9a-z]`; lowercasing identifies symbols that differ only in
ASCII case, and the symbol "AB-1" (bytes `[65, 66, 45, 49]`) is rejected. -/
theorem C7_name_derivation :
    (∀ env s args, env.attached_deposit = 0 →
      env.metadata_valid args.metadata = true →
      is_valid_token_id (to_ascii_lowercase args.metadata.symbol) = false →
      create_token env s args = Except.error Err.InvalidName)
    ∧ (∀ s1 s2 : List Nat,
        List.Forall₂ (fun b1 b2 => ascii_lower_byte b1 = ascii_lower_byte b2) s1 s2 →
        to_ascii_lowercase s1 = to_ascii_lowercase s2)
    ∧ to_ascii_lowercase [65, 66, 45, 49] = [97, 98, 45, 49]
    ∧ is_valid_token_id (to_ascii_lowercase [65, 66, 45, 49]) = false := by
  refine ⟨?_, ?_, by decide, by decide⟩
  · intro env s args hatt hmeta hbad
    simp [create_token, hatt, hmeta, hbad]
  · intro s1 s2 h
    induction h with
    | nil => rfl
    | cons hb htl ih =>
      simp only [to_ascii_lowercase, List.map] at ih ⊢
      rw [hb]
      rw [List.cons.injEq]
      exact ⟨rfl, ih⟩

theorem create_token_ok_cases (env : Env) (s : Contract) (args : TokenArgs)
    (s3 : Contract) (p : Promise)
    (h : create_token env s args = Except.ok (s3, p)) :
    ∃ s1 c,
      (if 0 < env.attached_deposit then storage_deposit env s else Except.ok s) =
        Except.ok s1
      ∧ s1.tokens = s.tokens
      ∧ env.metadata_valid args.metadata = true
      ∧ is_valid_token_id (to_ascii_lowercase args.metadata.symbol) = true
      ∧ mapGet s1.storage_deposits env.predecessor_account_id = some c
      ∧ get_min_attached_balance env args ≤ c
      ∧ mapGet s.tokens (to_ascii_lowercase args.metadata.symbol) = none
      ∧ s3.tokens =
          (mapInsert s.tokens (to_ascii_lowercase args.metadata.symbol) args).2
      ∧ s3.storage_deposits =
          (mapInsert s1.storage_deposits env.predecessor_account_id
            (saturating_sub c (get_min_attached_balance env args))).2
      ∧ p.transfer_amount = saturating_sub (get_min_attached_balance env args)
          (saturating_mul env.storage_byte_cost env.insert_delta)
      ∧ p.target =
          to_ascii_lowercase args.metadata.symbol ++ [46] ++ env.current_account_id := by
  simp only [create_token] at h
  split at h
  · exact Except.noConfusion h
  · rename_i s1 heq
    split at h
    · exact Except.noConfusion h
    · rename_i hmeta
      split at h
      · exact Except.noConfusion h
      · rename_i hname
        split at h
        · exact Except.noConfusion h
        · rename_i hacc
          split at h
          · exact Except.noConfusion h
          · rename_i c hc
            split at h
            · exact Except.noConfusion h
            · rename_i hlt
              split at h
              · exact Except.noConfusion h
              · rename_i hins
                injection h with h2
                rw [Prod.mk.injEq] at h2
                obtain ⟨h3, h4⟩ := h2
                subst h3
                subst h4
                have htok : s1.tokens = s.tokens :=
                  (create_step0_frame env s s1 heq).1
                have hnone : mapGet s1.tokens
                    (to_ascii_lowercase args.metadata.symbol) = none := by
                  rw [← mapInsert_fst s1.tokens
                    (to_ascii_lowercase args.metadata.symbol) args]
                  simp only [Bool.not_eq_true] at hins
                  exact Option.not_isSome_iff_eq_none.mp (by simp [hins])
                refine ⟨s1, c, heq, htok, by simpa using hmeta, by simpa using hname,
                  hc, Nat.not_lt.mp hlt, htok ▸ hnone, by rw [htok], rfl, rfl, rfl⟩

theorem tokens_preserved (s : Contract) (op : Op) (n : List Nat) (v : TokenArgs)
    (hn : mapGet s.tokens n = some v) :
    mapGet (applyOp s op).tokens n = some v := by
  cases op with
  | depositOp env =>
    simp only [applyOp]
    cases hd : storage_deposit env s with
    | ok s2 => rw [(storage_deposit_ok_frame env s s2 hd).1]; exact hn
    | error e => exact hn
  | createOp env args =>
    simp only [applyOp]
    cases hd : create_token env s args with
    | ok r =>
      obtain ⟨s1, c, _, _, _, _, _, _, habs, htoks, _, _, _⟩ :=
        create_token_ok_cases env s args r.1 r.2 hd
      rw [htoks, mapGet_mapInsert]
      split
      · rename_i hEq
        exfalso
        rw [← hEq, habs] at hn
        exact Option.noConfusion hn
      · exact hn
    | error e => exact hn
  | quoteOp env args a => exact hn

theorem tokens_preserved_run (ops : List Op) :
    ∀ (s : Contract) (n : List Nat) (v : TokenArgs),
      mapGet s.tokens n = some v → mapGet (run s ops).tokens n = some v := by
  induction ops with
  | nil => intro s n v hn; exact hn
  | cons op rest ih =>
    intro s n v hn
    exact ih (applyOp s op) n v (tokens_preserved s op n v hn)

/-- C2: once a name is in the registry it is never overwritten or removed by
any later committed call; a later `create_token` deriving that name never
succeeds and commits nothing (full rollback, so credits and the token count
are unchanged); and when such a call passes every earlier check it fails
exactly with `NameAlreadyTaken`. -/
theorem C2_name_taken_uniqueness (env : Env) (s : Contract) (args : TokenArgs)
    (n : List Nat) (v : TokenArgs) (hn : mapGet s.tokens n = some v) :
    (∀ ops, mapGet (run s ops).tokens n = some v)
    ∧ (to_ascii_lowercase args.metadata.symbol = n →
        (∀ r, create_token env s args ≠ Except.ok r)
        ∧ applyOp s (Op.createOp env args) = s
        ∧ get_number_of_tokens (applyOp s (Op.createOp env args)) =
            get_number_of_tokens s)
    ∧ (to_ascii_lowercase args.metadata.symbol = n →
        env.attached_deposit = 0 →
        env.metadata_valid args.metadata = true →
        is_valid_token_id n = true →
        env.is_valid_account_id (n ++ [46] ++ env.current_account_id) = true →
        ∀ c, mapGet s.storage_deposits env.predecessor_account_id = some c →
          get_min_attached_balance env args ≤ c →
          create_token env s args = Except.error Err.NameAlreadyTaken) := by
  refine ⟨fun ops => tokens_preserved_run ops s n v hn, ?_, ?_⟩
  · intro hEq
    have hfail : ∀ r, create_token env s args ≠ Except.ok r := by
      intro r hr
      obtain ⟨s1, c, _, _, _, _, _, _, habs, _, _, _, _⟩ :=
        create_token_ok_cases env s args r.1 r.2 hr
      rw [hEq, hn] at habs
      exact Option.noConfusion habs
    have happ : applyOp s (Op.createOp env args) = s := by
      simp only [applyOp]
      cases hc : create_token env s args with
      | ok r => exact absurd hc (hfail r)
      | error e => rfl
    exact ⟨hfail, happ, by rw [happ]⟩
  · intro hEq hatt hmeta hvalid hacc c hc hle
    subst hEq
    have hacc2 : env.is_valid_account_id (to_ascii_lowercase args.metadata.symbol ++
        46 :: env.current_account_id) = true := by simpa using hacc
    simp [create_token, hatt, hmeta, hvalid, hacc2, hc, Nat.not_lt.mpr hle,
      mapInsert_fst, hn]

/-- C8: after the name and child-identifier checks pass, `create_token`
fails with `AccountNotRegistered` for a caller without a ledger entry and
with `InsufficientFunds` for a caller whose credit is below the required
creation cost; on success the caller necessarily had enough credit and is
debited exactly the required amount. -/
theorem C8_ledger_checks (env : Env) (s : Contract) (args : TokenArgs)
    (hatt : env.attached_deposit = 0)
    (hmeta : env.metadata_valid args.metadata = true)
    (hvalid : is_valid_token_id (to_ascii_lowercase args.metadata.symbol) = true)
    (hacc : env.is_valid_account_id
      (to_ascii_lowercase args.metadata.symbol ++ [46] ++
        env.current_account_id) = true) :
    (mapGet s.storage_deposits env.predecessor_account_id = none →
      create_token env s args = Except.error Err.AccountNotRegistered)
    ∧ (∀ c, mapGet s.storage_deposits env.predecessor_account_id = some c →
        c < get_min_attached_balance env args →
        create_token env s args = Except.error Err.InsufficientFunds)
    ∧ (∀ c s3 p, mapGet s.storage_deposits env.predecessor_account_id = some c →
        create_token env s args = Except.ok (s3, p) →
        get_min_attached_balance env args ≤ c
        ∧ mapGet s3.storage_deposits env.predecessor_account_id =
            some (saturating_sub c (get_min_attached_balance env args))) := by
  have hacc2 : env.is_valid_account_id (to_ascii_lowercase args.metadata.symbol ++
      46 :: env.current_account_id) = true := by simpa using hacc
  refine ⟨?_, ?_, ?_⟩
  · intro hnone
    simp [create_token, hatt, hmeta, hvalid, hacc2, hnone]
  · intro c hc hlt
    simp [create_token, hatt, hmeta, hvalid, hacc2, hc, hlt]
  · intro c s3 p hc hok
    obtain ⟨s1, c2, heq, _, _, _, hc2, hle, _, _, hdeps, _, _⟩ :=
      create_token_ok_cases env s args s3 p hok
    have hs1 : s1 = s := by
      rw [hatt] at heq
      simp at heq
      exact heq.symm
    subst hs1
    rw [hc] at hc2
    injection hc2 with hc3
    subst hc3
    refine ⟨hle, ?_⟩
    rw [hdeps, mapGet_mapInsert]
    simp

/-- C9: a successful `create_token` emits an action batch whose transfer to
the child account is exactly the required creation cost minus the storage
actually consumed by the registry insert priced at the storage byte cost,
saturating at zero. -/
theorem C9_transfer_required_minus_used (env : Env) (s : Contract)
    (args : TokenArgs) (s3 : Contract) (p : Promise)
    (h : create_token env s args = Except.ok (s3, p)) :
    p.transfer_amount = saturating_sub (get_min_attached_balance env args)
      (saturating_mul env.storage_byte_cost env.insert_delta) := by
  obtain ⟨_, _, _, _, _, _, _, _, _, _, _, htrans, _⟩ :=
    create_token_ok_cases env s args s3 p h
  exact htrans

/-- C2 witness: in `sTokW` the name "a" is taken with record `argsW`; the
repeated `create_token` fails with `NameAlreadyTaken` and commits nothing. -/
theorem C2_name_taken_uniqueness_witness :
    mapGet sTokW.tokens [97] = some argsW
    ∧ create_token envW sTokW argsW = Except.error Err.NameAlreadyTaken
    ∧ applyOp sTokW (Op.createOp envW argsW) = sTokW := by
  have hn : mapGet sTokW.tokens [97] = some argsW := by decide
  have h := C2_name_taken_uniqueness envW sTokW argsW [97] argsW hn
  refine ⟨hn, ?_, (h.2.1 (by decide)).2.1⟩
  exact h.2.2 (by decide) rfl rfl (by decide) rfl 20000 (by decide) (by decide)

/-- C3 witness: concrete quotes — an unregistered account is quoted
`100 + 10002` and the registered account "a" with credit 20000 is quoted
`max (10002 - 20000) 0 = 0`. -/
theorem C3_required_deposit_witness :
    get_required_deposit envW sEmptyW argsW [98] = 100 + 10002
    ∧ (get_required_deposit envW sRegW argsW [97] : Int) =
        max ((10002 : Int) - 20000) 0 := by
  have h1 := (C3_required_deposit envW sEmptyW argsW [98]).1 (by decide) (by decide)
  have h2 := (C3_required_deposit envW sRegW argsW [97]).2 20000 (by decide)
  constructor
  · rw [h1]; decide
  · rw [h2]; decide

/-- C4 witness: the spec's own example — a first deposit of 150 against a
registration cost of 100 registers the account with credit exactly 50. -/
theorem C4_storage_deposit_registration_witness :
    ∃ s2, storage_deposit envD sEmptyW = Except.ok s2 ∧
      mapGet s2.storage_deposits [97] = some 50 := by
  obtain ⟨s2, h1, h2⟩ :=
    ((C4_storage_deposit_registration envD sEmptyW).1 (by decide)).2.2 (by decide)
  exact ⟨s2, h1, h2⟩

/-- C5 witness: after a committed deposit the credit of "a" is 50, a
non-negative amount. -/
theorem C5_credit_never_negative_witness :
    mapGet (run sEmptyW [Op.depositOp envD]).storage_deposits [97] = some 50
    ∧ (0 : Int) ≤ ((50 : Nat) : Int) := by
  have h : mapGet (run sEmptyW [Op.depositOp envD]).storage_deposits [97] =
      some 50 := by decide
  exact ⟨h, (C5_credit_never_negative [Op.depositOp envD] sEmptyW [97] 50 h).1⟩

/-- C7 witness: a creation request with symbol "AB-1" fails with
`InvalidName`. -/
theorem C7_name_derivation_witness :
    create_token envW sRegW argsAB = Except.error Err.InvalidName :=
  C7_name_derivation.1 envW sRegW argsAB rfl rfl (by decide)

/-- C8 witness: with no ledger entry for the caller, `create_token` fails
with `AccountNotRegistered`. -/
theorem C8_ledger_checks_witness :
    create_token envW sEmptyW argsW = Except.error Err.AccountNotRegistered :=
  (C8_ledger_checks envW sEmptyW argsW rfl rfl (by decide) rfl).1 (by decide)

/-- C9 witness: the concrete successful create from `sRegW` transfers
`10002 - 5 = 9997` to the child. -/
theorem C9_transfer_required_minus_used_witness :
    create_token envW sRegW argsW = Except.ok (s3W, pW)
    ∧ pW.transfer_amount =
        saturating_sub (get_min_attached_balance envW argsW)
          (saturating_mul envW.storage_byte_cost envW.insert_delta) := by
  have h : create_token envW sRegW argsW = Except.ok (s3W, pW) := by rfl
  exact ⟨h, C9_transfer_required_minus_used envW sRegW argsW s3W pW h⟩
